import Mathlib

/-!
Verification of the trading-pair normalization core of the
TradingView Watchlist Importer (`multi_exchange_pairs.py`).

The Python program is embedded shallowly: each raw exchange record is a
structure, the per-exchange `fetch_pairs` loops become folds over the list
of raw records, and the network/HTTP boundary is an explicit
`FetchOutcome` value (a parsed payload or a failure).  Machine-level
details (actual sockets, JSON text) are outside the embedding; the
embedded functions start from the parsed payload, exactly the data the
Python loops consume.
-/

namespace WatchlistImporter

/-- One raw record of Binance `exchangeInfo`'s `symbols` collection
(fields read at lines 56–61 of `multi_exchange_pairs.py`). -/
structure BinanceSymbol where
  symbol : String
  baseAsset : String
  quoteAsset : String
  status : String
deriving DecidableEq

/-- One raw Kraken `AssetPairs` entry value.  The Python code reads every
field with `dict.get` and a default, so each field is optional here and
read through `Option.getD` with the same default. -/
structure KrakenPairInfo where
  base : Option String := none
  quote : Option String := none
  altname : Option String := none
  wsname : Option String := none
deriving DecidableEq

/-- The canonical normalized pair record (`pair_info` at lines 59–64 for
Binance, `pair_data` at lines 158–166 for Kraken).  The three
Kraken-only traceability fields default to `""` for Binance records,
which simply do not carry them in the Python dicts. -/
structure TradingPair where
  symbol : String
  baseAsset : String
  quoteAsset : String
  exchange : String
  kraken_pair : String := ""
  wsname : String := ""
  altname : String := ""
deriving DecidableEq

/-- The dictionary returned by a successful `fetch_pairs` (lines 68–73 and
172–177): per-requested-asset lists, the flat list, and the count.
`results` is total with default `[]`, matching every read site
(`result['results'].get(asset, [])`). -/
structure FetchResult where
  exchange : String
  results : String → List TradingPair
  all_pairs : List TradingPair
  total : Nat

/-- Python's substring test `pat in s`, on character lists. -/
def listContainsSub (pat : List Char) : List Char → Bool
  | [] => pat.isPrefixOf ([] : List Char)
  | c :: rest => pat.isPrefixOf (c :: rest) || listContainsSub pat rest

/-- `'.d' in pair_name` (line 129). -/
def containsDotD (s : String) : Bool :=
  listContainsSub ".d".data s.data

/-- Python's `s.startswith(c)` for a one-character pattern. -/
def startsWithChar (c : Char) (s : String) : Bool :=
  match s.data with
  | [] => false
  | d :: _ => d == c

/-- Python's `s[1:]`: the string with its first character removed. -/
def dropFirst (s : String) : String :=
  String.mk (s.data.drop 1)

/-- Kraken base-asset canonicalization (lines 140–144): strip the leading
character from 4-character codes beginning with `X` or `Z`. -/
def canonicalizeBase (b : String) : String :=
  if startsWithChar 'X' b && b.length == 4 then dropFirst b
  else if startsWithChar 'Z' b && b.length == 4 then dropFirst b
  else b

/-- Python's `wsname.replace('/', '')`: since the pattern is a single
character and the replacement is empty, this removes every `/`. -/
def removeSlash (s : String) : String :=
  String.mk (s.data.filter (fun c => c != '/'))

/-- Python's `str.upper()` as used here (ASCII exchange names). -/
def upperStr (s : String) : String :=
  String.mk (s.data.map Char.toUpper)

/-- `KrakenFetcher.asset_map` (lines 86–98): the canonical quote codes
with known legacy aliases; `none` for codes not in the table. -/
def asset_map : String → Option (List String)
  | "USD" => some ["ZUSD", "USD"]
  | "USDT" => some ["USDT"]
  | "USDC" => some ["USDC"]
  | "EUR" => some ["ZEUR", "EUR"]
  | "GBP" => some ["ZGBP", "GBP"]
  | "JPY" => some ["ZJPY", "JPY"]
  | "CAD" => some ["ZCAD", "CAD"]
  | "AUD" => some ["ZAUD", "AUD"]
  | "CHF" => some ["CHF"]
  | "DAI" => some ["DAI"]
  | "BUSD" => some ["BUSD"]
  | _ => none

/-- The `search_assets` entry for one requested asset (lines 119–124):
the alias list from `asset_map` when present, else the singleton. -/
def searchNames (a : String) : List String :=
  match asset_map a with
  | some l => l
  | none => [a]

/-- The pair record the Binance loop body builds for one raw symbol record,
`none` when the record is filtered out (line 57: quote not requested or
status not `TRADING`; kept records are copied verbatim, lines 59–64). -/
def binancePairOf (quote_assets : List String) (s : BinanceSymbol) : Option TradingPair :=
  if quote_assets.contains s.quoteAsset && s.status == "TRADING" then
    some { symbol := s.symbol, baseAsset := s.baseAsset, quoteAsset := s.quoteAsset,
           exchange := "Binance" }
  else none

/-- The pair record the Kraken loop body builds for one raw `AssetPairs`
entry (lines 127–170): `none` when the pair name carries the `.d`
futures marker (129–130) or no requested asset's alias list contains the
raw quote code (137–138); otherwise the normalized record, attributed to
the first matching requested asset (`break` at line 170 — `List.find?`
over the requested assets has exactly this first-match semantics, since
the `search_assets` dict iterates in `quote_assets` insertion order). -/
def krakenPairOf (quote_assets : List String) (entry : String × KrakenPairInfo) :
    Option TradingPair :=
  let pair_name := entry.1
  let info := entry.2
  if containsDotD pair_name then none
  else
    let quote_asset_kraken := info.quote.getD ""
    let base_asset_kraken := info.base.getD ""
    match quote_assets.find? (fun a => (searchNames a).contains quote_asset_kraken) with
    | none => none
    | some original_asset =>
      let altname := info.altname.getD pair_name
      let wsname := info.wsname.getD ""
      let tv_symbol := if wsname != "" then removeSlash wsname else altname
      some { symbol := tv_symbol, baseAsset := canonicalizeBase base_asset_kraken,
             quoteAsset := original_asset, exchange := "Kraken",
             kraken_pair := pair_name, wsname := wsname, altname := altname }

/-- The common shape of both fetch loops' bodies: when the record is kept,
append the built pair to `results[quoteAsset]` and to `all_pairs`
(lines 65–66 and 168–169); otherwise leave the state unchanged. -/
def loopStep (pf : ε → Option TradingPair)
    (st : (String → List TradingPair) × List TradingPair) (e : ε) :
    (String → List TradingPair) × List TradingPair :=
  match pf e with
  | none => st
  | some p => (Function.update st.1 p.quoteAsset (st.1 p.quoteAsset ++ [p]), st.2 ++ [p])

/-- The successfully-parsed part of `BinanceFetcher.fetch_pairs`
(lines 50–73). -/
def binanceProcess (quote_assets : List String) (symbols : List BinanceSymbol) :
    FetchResult :=
  let st := symbols.foldl (loopStep (binancePairOf quote_assets)) (fun _ => [], [])
  { exchange := "Binance", results := st.1, all_pairs := st.2, total := st.2.length }

/-- The successfully-parsed, error-free part of `KrakenFetcher.fetch_pairs`
(lines 112–177). -/
def krakenProcess (quote_assets : List String)
    (asset_pairs : List (String × KrakenPairInfo)) : FetchResult :=
  let st := asset_pairs.foldl (loopStep (krakenPairOf quote_assets)) (fun _ => [], [])
  { exchange := "Kraken", results := st.1, all_pairs := st.2, total := st.2.length }

/-- The observable outcome of the HTTP-and-parse boundary of a fetch call:
either a parsed payload, or any of the failures the Python `except`
clause catches (network/transport error, `raise_for_status`, JSON or
shape error). -/
inductive FetchOutcome (α : Type) where
  | failure : FetchOutcome α
  | payload : α → FetchOutcome α

/-- The parsed Kraken response: the application-level `error` array and
the `result` mapping (as its key/value sequence). -/
structure KrakenResponse where
  error : List String
  result : List (String × KrakenPairInfo)

/-- `BinanceFetcher.fetch_pairs` (lines 42–77): `None` on any caught
failure, otherwise the processed result. -/
def BinanceFetcher.fetch_pairs (quote_assets : List String)
    (o : FetchOutcome (List BinanceSymbol)) : Option FetchResult :=
  match o with
  | .failure => none
  | .payload symbols => some (binanceProcess quote_assets symbols)

/-- `KrakenFetcher.fetch_pairs` (lines 100–181): `None` on any caught
failure or when the payload's `error` array is non-empty (lines 108–110),
otherwise the processed result. -/
def KrakenFetcher.fetch_pairs (quote_assets : List String)
    (o : FetchOutcome KrakenResponse) : Option FetchResult :=
  match o with
  | .failure => none
  | .payload data => if data.error ≠ [] then none else
      some (krakenProcess quote_assets data.result)

/-- The fetch phase of `main` (lines 492–502): each selected fetcher is
invoked on its own outcome and its `Option` result appended. -/
def runAll (exchanges quote_assets : List String)
    (b : FetchOutcome (List BinanceSymbol)) (k : FetchOutcome KrakenResponse) :
    List (Option FetchResult) :=
  (if exchanges.contains "binance" then [BinanceFetcher.fetch_pairs quote_assets b] else []) ++
  (if exchanges.contains "kraken" then [KrakenFetcher.fetch_pairs quote_assets k] else [])

/-- The normalized `BASE/QUOTE` string set built for the common-pairs
analysis (lines 357–362 of `display_results`). -/
def pairsSet (r : FetchResult) : Finset String :=
  (r.all_pairs.map (fun p => p.baseAsset ++ "/" ++ p.quoteAsset)).toFinset

/-- Line 367: pairs available on both exchanges. -/
def commonPairs (r1 r2 : FetchResult) : Finset String :=
  pairsSet r1 ∩ pairsSet r2

/-- Line 368: pairs only on the first exchange. -/
def onlyFirst (r1 r2 : FetchResult) : Finset String :=
  pairsSet r1 \ pairsSet r2

/-- Line 369: pairs only on the second exchange. -/
def onlySecond (r1 r2 : FetchResult) : Finset String :=
  pairsSet r2 \ pairsSet r1

/-- Lexicographic code-point comparison of character lists: Python's
`<=` on `str`, which `sorted` uses through the symbol key. -/
def leChars : List Char → List Char → Bool
  | [], _ => true
  | _ :: _, [] => false
  | a :: as, b :: bs =>
    if a.toNat < b.toNat then true
    else if b.toNat < a.toNat then false
    else leChars as bs

theorem leChars_total : ∀ as bs : List Char, leChars as bs = true ∨ leChars bs as = true
  | [], _ => Or.inl rfl
  | _ :: _, [] => Or.inr rfl
  | a :: as, b :: bs => by
    rcases lt_trichotomy a.toNat b.toNat with h | h | h
    · exact Or.inl (by simp [leChars, h])
    · rcases leChars_total as bs with ih | ih
      · exact Or.inl (by simp [leChars, h, lt_irrefl, ih])
      · exact Or.inr (by simp [leChars, h, lt_irrefl, ih])
    · exact Or.inr (by simp [leChars, h])

theorem leChars_trans : ∀ as bs cs : List Char,
    leChars as bs = true → leChars bs cs = true → leChars as cs = true
  | [], _, _ => fun _ _ => rfl
  | _ :: _, [], _ => fun h _ => by simp [leChars] at h
  | _ :: _, _ :: _, [] => fun _ h2 => by simp [leChars] at h2
  | a :: as, b :: bs, c :: cs => fun h1 h2 => by
    simp only [leChars] at h1 h2 ⊢
    rcases lt_trichotomy a.toNat b.toNat with hab | hab | hab
    · rcases lt_trichotomy b.toNat c.toNat with hbc | hbc | hbc
      · simp [lt_trans hab hbc]
      · simp [hbc ▸ hab]
      · simp [hab, not_lt.mpr (le_of_lt hab), lt_irrefl] at h1
        rcases lt_trichotomy a.toNat c.toNat with hac | hac | hac
        · simp [hac]
        · simp [hbc, not_lt.mpr (le_of_lt hbc), lt_irrefl] at h2
        · simp [hbc, not_lt.mpr (le_of_lt hbc), lt_irrefl] at h2
    · rw [hab]
      rcases lt_trichotomy b.toNat c.toNat with hbc | hbc | hbc
      · simp [hbc]
      · rw [hbc]
        simp only [lt_irrefl, if_false] at h1 h2 ⊢
        rw [hab, hbc] at h1
        simp only [lt_irrefl, if_false] at h1
        rw [hbc] at h2
        simp only [lt_irrefl, if_false] at h2
        exact leChars_trans as bs cs h1 h2
      · simp [hbc, not_lt.mpr (le_of_lt hbc), lt_irrefl] at h2
    · simp [hab, not_lt.mpr (le_of_lt hab), lt_irrefl] at h1

/-- Python's `<=` on strings: lexicographic by code point. -/
def strLE (s t : String) : Prop :=
  leChars s.data t.data = true

instance : DecidableRel strLE :=
  fun s t => inferInstanceAs (Decidable (leChars s.data t.data = true))

/-- The ordering Python's `sorted(pairs, key=lambda x: x['symbol'])` uses. -/
def symbolLE (p q : TradingPair) : Prop :=
  strLE p.symbol q.symbol

instance : DecidableRel symbolLE :=
  fun p q => inferInstanceAs (Decidable (strLE p.symbol q.symbol))

instance : IsTotal TradingPair symbolLE :=
  ⟨fun p q => leChars_total p.symbol.data q.symbol.data⟩

instance : IsTrans TradingPair symbolLE :=
  ⟨fun p q r' h h2 => leChars_trans p.symbol.data q.symbol.data r'.symbol.data h h2⟩

/-- `sorted(pairs, key=lambda x: x['symbol'])` (lines 437, 458, 473):
a stable sort by the symbol string. -/
def sortBySymbol (pairs : List TradingPair) : List TradingPair :=
  List.insertionSort symbolLE pairs

/-- The pair sequence underlying one exchange's TradingView watchlist
file (the nested loops at lines 456–460 of `save_results`): for each
requested asset in request order, that asset's pairs sorted by symbol. -/
def tvPairSeq (quote_assets : List String) (r : FetchResult) : List TradingPair :=
  quote_assets.flatMap (fun asset => sortBySymbol (r.results asset))

/-- The lines written to one exchange's TradingView watchlist file
(lines 453–460 of `save_results`): one line `EXCHANGENAME:symbol` per
pair of the file's pair sequence. -/
def tvLines (quote_assets : List String) (r : FetchResult) : List String :=
  (tvPairSeq quote_assets r).map (fun p => upperStr r.exchange ++ ":" ++ p.symbol)

/-- The lines written to the combined TradingView file (lines 467–474):
the successful exchanges' per-exchange line blocks, concatenated. -/
def tvCombinedLines (quote_assets : List String)
    (all_results : List (Option FetchResult)) : List String :=
  all_results.flatMap (fun res =>
    match res with
    | none => []
    | some r => tvLines quote_assets r)

/-! ## Loop characterization lemmas -/

theorem foldl_loopStep_snd (pf : ε → Option TradingPair) (l : List ε) :
    ∀ (f : String → List TradingPair) (acc : List TradingPair),
      (l.foldl (loopStep pf) (f, acc)).2 = acc ++ l.filterMap pf := by
  induction l with
  | nil => intro f acc; simp
  | cons e t ih =>
    intro f acc
    simp only [List.foldl_cons, List.filterMap_cons]
    cases h : pf e with
    | none => simp [loopStep, h, ih]
    | some p => simp [loopStep, h, ih]

theorem foldl_loopStep_fst (pf : ε → Option TradingPair) (l : List ε) :
    ∀ (f : String → List TradingPair) (acc : List TradingPair) (a : String),
      (l.foldl (loopStep pf) (f, acc)).1 a
        = f a ++ (l.filterMap pf).filter (fun p => p.quoteAsset == a) := by
  induction l with
  | nil => intro f acc a; simp
  | cons e t ih =>
    intro f acc a
    simp only [List.foldl_cons, List.filterMap_cons]
    cases h : pf e with
    | none => simp [loopStep, h, ih]
    | some p =>
      simp only [loopStep, h]
      rw [ih]
      by_cases hpa : p.quoteAsset = a
      · subst hpa
        rw [Function.update_same]
        simp [List.filter_cons]
      · rw [Function.update_noteq (fun hc => hpa hc.symm)]
        simp [List.filter_cons, hpa]

theorem binanceProcess_all_pairs (qa : List String) (data : List BinanceSymbol) :
    (binanceProcess qa data).all_pairs = data.filterMap (binancePairOf qa) := by
  simp [binanceProcess, foldl_loopStep_snd]

theorem binanceProcess_results (qa : List String) (data : List BinanceSymbol) (a : String) :
    (binanceProcess qa data).results a
      = (data.filterMap (binancePairOf qa)).filter (fun p => p.quoteAsset == a) := by
  simp [binanceProcess, foldl_loopStep_fst]

theorem binanceProcess_total (qa : List String) (data : List BinanceSymbol) :
    (binanceProcess qa data).total = (data.filterMap (binancePairOf qa)).length := by
  simp [binanceProcess, foldl_loopStep_snd]

theorem krakenProcess_all_pairs (qa : List String) (data : List (String × KrakenPairInfo)) :
    (krakenProcess qa data).all_pairs = data.filterMap (krakenPairOf qa) := by
  simp [krakenProcess, foldl_loopStep_snd]

theorem krakenProcess_results (qa : List String) (data : List (String × KrakenPairInfo))
    (a : String) :
    (krakenProcess qa data).results a
      = (data.filterMap (krakenPairOf qa)).filter (fun p => p.quoteAsset == a) := by
  simp [krakenProcess, foldl_loopStep_fst]

theorem krakenProcess_total (qa : List String) (data : List (String × KrakenPairInfo)) :
    (krakenProcess qa data).total = (data.filterMap (krakenPairOf qa)).length := by
  simp [krakenProcess, foldl_loopStep_snd]

/-- Unpack one kept Kraken entry: `krakenPairOf` returns `some p` exactly
when the name has no `.d` and some requested asset's alias list contains
the raw quote, and then `p` is the record of lines 158–166. -/
theorem krakenPairOf_eq_some (qa : List String) (e : String × KrakenPairInfo)
    (p : TradingPair) (h : krakenPairOf qa e = some p) :
    containsDotD e.1 = false ∧
    ∃ original_asset,
      qa.find? (fun a => (searchNames a).contains (e.2.quote.getD "")) = some original_asset ∧
      p = { symbol := (if e.2.wsname.getD "" != "" then removeSlash (e.2.wsname.getD "")
                       else e.2.altname.getD e.1),
            baseAsset := canonicalizeBase (e.2.base.getD ""),
            quoteAsset := original_asset, exchange := "Kraken",
            kraken_pair := e.1, wsname := e.2.wsname.getD "",
            altname := e.2.altname.getD e.1 } := by
  unfold krakenPairOf at h
  by_cases hd : containsDotD e.1 = true
  · simp [hd] at h
  · simp only [Bool.not_eq_true] at hd
    simp only [hd, Bool.false_eq_true, if_false] at h
    cases hf : qa.find? (fun a => (searchNames a).contains (e.2.quote.getD "")) with
    | none => rw [hf] at h; simp at h
    | some oa =>
      rw [hf] at h
      simp only [Option.some.injEq] at h
      exact ⟨hd, oa, rfl, h.symm⟩

/-! ## Claims -/

theorem dropFirst_ne (b : String) (hb : b ≠ "") : b ≠ dropFirst b := by
  cases b with
  | mk l =>
    cases l with
    | nil => exact absurd rfl hb
    | cons c rest =>
      intro hc
      have hdata : c :: rest = rest := congrArg String.data hc
      exact List.cons_ne_self c rest hdata

/-- C1 as stated fails at the empty code: the empty string is not
4 characters long and does not begin with `X` or `Z`, yet its
canonicalization (the identity) coincides with removing its (nonexistent)
first character, contradicting the claimed equivalence. -/
theorem C1_counterexample :
    canonicalizeBase "" = dropFirst "" ∧
    ¬ (("" : String).length = 4 ∧
        (startsWithChar 'X' "" = true ∨ startsWithChar 'Z' "" = true)) := by
  constructor
  · decide
  · decide

/-- C1 (amended): for every nonempty raw base code, the canonicalized
base equals the code with its first character removed if and only if the
code is exactly 4 characters long and begins with `X` or `Z`; for every
code not of that shape (the empty string included) the canonicalization
is the identity. -/
theorem C1_canonicalizeBase (b : String) :
    (b ≠ "" →
      (canonicalizeBase b = dropFirst b ↔
        b.length = 4 ∧ (startsWithChar 'X' b = true ∨ startsWithChar 'Z' b = true))) ∧
    (¬ (b.length = 4 ∧ (startsWithChar 'X' b = true ∨ startsWithChar 'Z' b = true)) →
      canonicalizeBase b = b) := by
  have hid : ¬ (b.length = 4 ∧
      (startsWithChar 'X' b = true ∨ startsWithChar 'Z' b = true)) →
      canonicalizeBase b = b := by
    intro hnot
    unfold canonicalizeBase
    by_cases hlen : b.length = 4
    · have hX : startsWithChar 'X' b ≠ true := fun hx => hnot ⟨hlen, Or.inl hx⟩
      have hZ : startsWithChar 'Z' b ≠ true := fun hz => hnot ⟨hlen, Or.inr hz⟩
      simp [Bool.not_eq_true] at hX hZ
      simp [hX, hZ]
    · have : (b.length == 4) = false := by simp [hlen]
      simp [this]
  refine ⟨fun hb => ⟨fun heq => ?_, fun hcond => ?_⟩, hid⟩
  · by_contra hnot
    exact dropFirst_ne b hb ((hid hnot).symm.trans heq)
  · obtain ⟨hlen, hstart⟩ := hcond
    unfold canonicalizeBase
    have hlen4 : (b.length == 4) = true := by simp [hlen]
    rcases hstart with hx | hz
    · simp [hx, hlen4]
    · by_cases hx : startsWithChar 'X' b = true
      · simp [hx, hlen4]
      · simp [Bool.not_eq_true] at hx
        simp [hx, hz, hlen4]

theorem C1_canonicalizeBase_witness :
    canonicalizeBase "XXBT" = dropFirst "XXBT" ∧ canonicalizeBase "USDT" = "USDT" :=
  ⟨((C1_canonicalizeBase "XXBT").1 (by decide)).mpr (by decide),
   (C1_canonicalizeBase "USDT").2 (by decide)⟩

/-- C2 as stated fails: the raw Kraken entry
`(base XXBT, quote ZUSD, wsname BTC/USD)` requested under `USD` yields
`baseAsset = "XBT"` (the 4-character code `XXBT` stripped of its leading
`X`), not `"BTC"` as the claim asserts. -/
theorem C2_counterexample :
    ((krakenProcess ["USD"]
        [("XXBTZUSD",
          { base := some "XXBT", quote := some "ZUSD",
            wsname := some "BTC/USD" })]).all_pairs.map
      (fun p => (p.symbol, p.baseAsset, p.quoteAsset))
      = [("BTCUSD", "XBT", "USD")]) ∧
    (("XBT", "USD") : String × String) ≠ ("BTC", "USD") := by
  constructor
  · decide
  · decide

/-- C2 (amended): the raw Kraken entry with base `XXBT`, quote `ZUSD` and
wsname `BTC/USD`, requested under canonical `USD`, yields symbol
`BTCUSD`, baseAsset `XBT` and quoteAsset `USD`. -/
theorem C2_kraken_btc_example :
    ((krakenProcess ["USD"]
        [("XXBTZUSD",
          { base := some "XXBT", quote := some "ZUSD",
            wsname := some "BTC/USD" })]).all_pairs.map
      (fun p => (p.symbol, p.baseAsset, p.quoteAsset)))
      = [("BTCUSD", "XBT", "USD")] := by
  decide

/-- C3: every pair kept by the Kraken normalizer records as `quoteAsset`
the first caller-requested canonical code whose alias list contains the
entry's raw quote code; the recorded code is always a requested code
(hence never a raw legacy alias such as `ZUSD` unless itself requested:
whenever the raw quote code is not itself a requested code, `quoteAsset`
differs from it); `USD`'s alias list contains both `USD` and `ZUSD`, and
codes absent from the alias table resolve to themselves only. -/
theorem C3_kraken_quote_attribution (qa : List String)
    (data : List (String × KrakenPairInfo)) (p : TradingPair)
    (hp : p ∈ (krakenProcess qa data).all_pairs) :
    p.quoteAsset ∈ qa ∧
    ("ZUSD" ∈ searchNames "USD" ∧ "USD" ∈ searchNames "USD") ∧
    (∀ c, asset_map c = none → searchNames c = [c]) ∧
    ∃ e ∈ data, p.kraken_pair = e.1 ∧
      (searchNames p.quoteAsset).contains (e.2.quote.getD "") = true ∧
      qa.find? (fun a => (searchNames a).contains (e.2.quote.getD "")) = some p.quoteAsset ∧
      (e.2.quote.getD "" ∉ qa → p.quoteAsset ≠ e.2.quote.getD "") := by
  rw [krakenProcess_all_pairs] at hp
  obtain ⟨e, he, hse⟩ := List.mem_filterMap.mp hp
  obtain ⟨hd, oa, hfind, hpeq⟩ := krakenPairOf_eq_some qa e p hse
  subst hpeq
  have hmem : oa ∈ qa := List.mem_of_find?_eq_some hfind
  refine ⟨hmem, ⟨by decide, by decide⟩, ?_, e, he, rfl, ?_, hfind, ?_⟩
  · intro c hc
    unfold searchNames
    rw [hc]
  · have h2 := List.find?_some hfind
    simpa using h2
  · intro hraw heqq
    exact hraw (heqq ▸ hmem)

theorem C3_kraken_quote_attribution_witness :
    ("USD" : String) ∈ ["USD"] ∧ "ZUSD" ∈ searchNames "USD" :=
  have h := C3_kraken_quote_attribution ["USD"]
    [("XXBTZUSD",
      { base := some "XXBT", quote := some "ZUSD", wsname := some "BTC/USD" })]
    { symbol := "BTCUSD", baseAsset := "XBT", quoteAsset := "USD",
      exchange := "Kraken", kraken_pair := "XXBTZUSD", wsname := "BTC/USD",
      altname := "XXBTZUSD" }
    (by decide)
  ⟨h.1, h.2.1.1⟩

/-- C4: every pair kept by the Kraken normalizer derives its display
symbol from its source entry's `wsname` with the `/` removed whenever
that field is present (non-empty — Python's `dict.get('wsname', '')`
followed by a truthiness test makes a missing field and an empty one
indistinguishable); otherwise from `altname`; otherwise from the raw
pair-name key (the default of `dict.get('altname', pair_name)`). -/
theorem C4_kraken_symbol_priority (qa : List String)
    (data : List (String × KrakenPairInfo)) (p : TradingPair)
    (hp : p ∈ (krakenProcess qa data).all_pairs) :
    ∃ e ∈ data, p.kraken_pair = e.1 ∧
      p.wsname = e.2.wsname.getD "" ∧
      p.altname = e.2.altname.getD e.1 ∧
      p.symbol = (if p.wsname != "" then removeSlash p.wsname else p.altname) := by
  rw [krakenProcess_all_pairs] at hp
  obtain ⟨e, he, hse⟩ := List.mem_filterMap.mp hp
  obtain ⟨hd, oa, hfind, hpeq⟩ := krakenPairOf_eq_some qa e p hse
  subst hpeq
  exact ⟨e, he, rfl, rfl, rfl, rfl⟩

theorem C4_kraken_symbol_priority_witness :
    ∃ e ∈ [("ETHUSD", ({ quote := some "USD" } : KrakenPairInfo))],
      ("ETHUSD" : String) = e.1 ∧
      ("" : String) = e.2.wsname.getD "" ∧
      ("ETHUSD" : String) = e.2.altname.getD e.1 ∧
      ("ETHUSD" : String)
        = (if ("" : String) != "" then removeSlash "" else "ETHUSD") :=
  C4_kraken_symbol_priority ["USD"] [("ETHUSD", { quote := some "USD" })]
    { symbol := "ETHUSD", baseAsset := "", quoteAsset := "USD",
      exchange := "Kraken", kraken_pair := "ETHUSD", wsname := "",
      altname := "ETHUSD" }
    (by decide)

/-- C5: no pair appearing in the flat `all_pairs` list or in any
per-asset result list of a Kraken fetch has a pair-name key containing
`.d` — equivalently, every raw entry whose key contains `.d` is excluded
from all of them, whatever its quote and base codes; in particular the
entry keyed `XBTUSD.d`, whose quote would match `USD`, yields nothing. -/
theorem C5_kraken_futures_excluded (qa : List String)
    (data : List (String × KrakenPairInfo)) (a : String) (p : TradingPair)
    (hp : p ∈ (krakenProcess qa data).all_pairs ∨ p ∈ (krakenProcess qa data).results a) :
    containsDotD p.kraken_pair = false ∧
    (krakenProcess ["USD"]
      [("XBTUSD.d",
        { base := some "XXBT", quote := some "ZUSD",
          wsname := some "XBT/USD" })]).all_pairs = [] := by
  have hall : p ∈ (krakenProcess qa data).all_pairs := by
    rcases hp with h | h
    · exact h
    · rw [krakenProcess_results] at h
      rw [krakenProcess_all_pairs]
      exact List.mem_of_mem_filter h
  rw [krakenProcess_all_pairs] at hall
  obtain ⟨e, he, hse⟩ := List.mem_filterMap.mp hall
  obtain ⟨hd, oa, hfind, hpeq⟩ := krakenPairOf_eq_some qa e p hse
  subst hpeq
  exact ⟨hd, by decide⟩

theorem C5_kraken_futures_excluded_witness :
    containsDotD "XXBTZUSD" = false ∧
    (krakenProcess ["USD"]
      [("XBTUSD.d",
        { base := some "XXBT", quote := some "ZUSD",
          wsname := some "XBT/USD" })]).all_pairs = [] :=
  C5_kraken_futures_excluded ["USD"]
    [("XXBTZUSD",
      { base := some "XXBT", quote := some "ZUSD", wsname := some "BTC/USD" })]
    "USD"
    { symbol := "BTCUSD", baseAsset := "XBT", quoteAsset := "USD",
      exchange := "Kraken", kraken_pair := "XXBTZUSD", wsname := "BTC/USD",
      altname := "XXBTZUSD" }
    (Or.inl (by decide))

theorem filterMap_guard {α β : Type} (c : α → Bool) (g : α → β) (l : List α) :
    l.filterMap (fun s => if c s then some (g s) else none) = (l.filter c).map g := by
  induction l with
  | nil => rfl
  | cons x t ih =>
    by_cases hx : c x = true
    · simp [List.filterMap_cons, List.filter_cons, hx, ih]
    · simp only [Bool.not_eq_true] at hx
      simp [List.filterMap_cons, List.filter_cons, hx, ih]

/-- C6: the Binance normalizer's flat output is exactly the raw records
whose raw `quoteAsset` is in the requested filter list and whose status
is `TRADING`, each mapped to a pair carrying symbol, baseAsset and
quoteAsset verbatim; in particular the `ETHUSDT`/`TRADING` entry
requested under `USDT` passes through unchanged. -/
theorem C6_binance_filter (qa : List String) (data : List BinanceSymbol) :
    (binanceProcess qa data).all_pairs
      = (data.filter (fun s => qa.contains s.quoteAsset && s.status == "TRADING")).map
          (fun s => { symbol := s.symbol, baseAsset := s.baseAsset,
                      quoteAsset := s.quoteAsset, exchange := "Binance" }) ∧
    (binanceProcess ["USDT"]
        [{ symbol := "ETHUSDT", baseAsset := "ETH", quoteAsset := "USDT",
           status := "TRADING" }]).all_pairs
      = [{ symbol := "ETHUSDT", baseAsset := "ETH", quoteAsset := "USDT",
           exchange := "Binance" }] := by
  constructor
  · rw [binanceProcess_all_pairs]
    exact filterMap_guard _ _ data
  · decide

/-- C7: a failure at the fetch boundary yields the `None` sentinel for
the whole exchange, as does a non-empty Kraken `error` array; a
successful parse always yields `Some` of the result computed from the
entire payload (never a partial result), even when zero pairs match —
so the sentinel is distinguishable from an empty success; and `main`
invokes each fetcher on its own outcome, so one exchange's failure
leaves the other's entry untouched. -/
theorem C7_fetch_error_handling (qa : List String) (resp : KrakenResponse)
    (b : FetchOutcome (List BinanceSymbol)) (k : FetchOutcome KrakenResponse) :
    BinanceFetcher.fetch_pairs qa .failure = none ∧
    KrakenFetcher.fetch_pairs qa .failure = none ∧
    (resp.error ≠ [] → KrakenFetcher.fetch_pairs qa (.payload resp) = none) ∧
    (resp.error = [] →
      KrakenFetcher.fetch_pairs qa (.payload resp)
        = some (krakenProcess qa resp.result)) ∧
    (∀ symbols, BinanceFetcher.fetch_pairs qa (.payload symbols)
      = some (binanceProcess qa symbols)) ∧
    BinanceFetcher.fetch_pairs qa (.payload []) ≠ none ∧
    (binanceProcess qa []).total = 0 ∧
    (binanceProcess qa []).all_pairs = [] ∧
    runAll ["binance", "kraken"] qa b k
      = [BinanceFetcher.fetch_pairs qa b, KrakenFetcher.fetch_pairs qa k] := by
  refine ⟨rfl, rfl, ?_, ?_, fun _ => rfl, by simp [BinanceFetcher.fetch_pairs], rfl, rfl, ?_⟩
  · intro he
    simp [KrakenFetcher.fetch_pairs, he]
  · intro he
    simp [KrakenFetcher.fetch_pairs, he]
  · simp [runAll]

theorem C7_fetch_error_handling_witness :
    KrakenFetcher.fetch_pairs ["USD"]
      (.payload { error := ["EService:Unavailable"], result := [] }) = none ∧
    KrakenFetcher.fetch_pairs ["USD"] (.payload { error := [], result := [] })
      = some (krakenProcess ["USD"] []) :=
  ⟨(C7_fetch_error_handling ["USD"] { error := ["EService:Unavailable"], result := [] }
      .failure .failure).2.2.1 (by decide),
   (C7_fetch_error_handling ["USD"] { error := [], result := [] }
      .failure .failure).2.2.2.1 rfl⟩

/-- C8: over any two exchanges' result sets, viewed as the sets of
normalized `BASE/QUOTE` strings the common-pairs analysis builds, the
intersection and the two differences satisfy the cardinality identities
of the claim. -/
theorem C8_common_pairs_cardinality (r1 r2 : FetchResult) :
    (commonPairs r1 r2).card + (onlyFirst r1 r2).card = (pairsSet r1).card ∧
    (commonPairs r1 r2).card + (onlySecond r1 r2).card = (pairsSet r2).card := by
  constructor
  · exact Finset.card_inter_add_card_sdiff (pairsSet r1) (pairsSet r2)
  · rw [commonPairs, Finset.inter_comm]
    exact Finset.card_inter_add_card_sdiff (pairsSet r2) (pairsSet r1)

/-- C9 as stated fails: with requested quotes `[USDT, USD]` the
per-exchange TradingView file writes the whole `USDT` group before the
`USD` group, so the line for `XBTUSDT` precedes the line for `XBTUSD`
although `XBTUSD` sorts lexicographically before `XBTUSDT`; the file's
pair sequence is not sorted by symbol across the whole file. -/
theorem C9_counterexample :
    tvLines ["USDT", "USD"]
      (krakenProcess ["USDT", "USD"]
        [("XBTUSDT",
          { base := some "XBT", quote := some "USDT",
            wsname := some "XBT/USDT", altname := some "XBTUSDT" }),
         ("XXBTZUSD",
          { base := some "XXBT", quote := some "ZUSD",
            wsname := some "XBT/USD", altname := some "XBTUSD" })])
      = ["KRAKEN:XBTUSDT", "KRAKEN:XBTUSD"] ∧
    ¬ List.Sorted symbolLE
      (tvPairSeq ["USDT", "USD"]
        (krakenProcess ["USDT", "USD"]
          [("XBTUSDT",
            { base := some "XBT", quote := some "USDT",
              wsname := some "XBT/USDT", altname := some "XBTUSDT" }),
           ("XXBTZUSD",
            { base := some "XXBT", quote := some "ZUSD",
              wsname := some "XBT/USD", altname := some "XBTUSD" })])) := by
  constructor
  · decide
  · decide

/-- C9 (amended): for every exchange result, the TradingView watchlist
file has exactly one line per pair, each of the form
`EXCHANGE_NAME_UPPERCASE:symbol`; the lines are grouped by requested
quote asset in request order and sorted lexicographically by symbol
within each per-asset group (not across the whole file); and the
combined file is the concatenation of the successful exchanges' files
under the same per-exchange prefixing rule. -/
theorem C9_tv_watchlist (qa : List String) (r : FetchResult)
    (all_results : List (Option FetchResult)) :
    tvLines qa r
      = (tvPairSeq qa r).map (fun p => upperStr r.exchange ++ ":" ++ p.symbol) ∧
    tvPairSeq qa r = qa.flatMap (fun asset => sortBySymbol (r.results asset)) ∧
    (∀ asset, List.Sorted symbolLE (sortBySymbol (r.results asset))) ∧
    (∀ asset, (sortBySymbol (r.results asset)).Perm (r.results asset)) ∧
    (tvLines qa r).length = (qa.map (fun asset => (r.results asset).length)).sum ∧
    tvCombinedLines qa all_results
      = all_results.flatMap (fun res => (res.map (fun r2 => tvLines qa r2)).getD []) := by
  refine ⟨rfl, rfl, ?_, ?_, ?_, ?_⟩
  · intro asset
    exact List.sorted_insertionSort symbolLE (r.results asset)
  · intro asset
    exact List.perm_insertionSort symbolLE (r.results asset)
  · rw [tvLines, List.length_map, tvPairSeq, List.length_flatMap]
    simp [Function.comp_def, sortBySymbol, List.length_insertionSort]
  · rw [tvCombinedLines]
    congr 1
    funext res
    cases res <;> rfl

theorem length_filterMap_eq_countP {α : Type} (pf : α → Option TradingPair)
    (l : List α) :
    (l.filterMap pf).length = l.countP (fun e => (pf e).isSome) := by
  induction l with
  | nil => rfl
  | cons x t ih =>
    cases h : pf x with
    | none => simp [List.filterMap_cons, List.countP_cons, h, ih]
    | some p => simp [List.filterMap_cons, List.countP_cons, h, ih]

theorem sum_map_ite_zero (x : String) :
    ∀ l : List String, x ∉ l →
      (l.map (fun a => if (x == a) = true then (1 : Nat) else 0)).sum = 0 := by
  intro l
  induction l with
  | nil => intro _; rfl
  | cons y t ih =>
    intro hx
    have hxy : (x == y) = false :=
      beq_eq_false_iff_ne.mpr (fun hc => hx (hc ▸ List.mem_cons_self y t))
    have hxt : x ∉ t := fun hc => hx (List.mem_cons_of_mem y hc)
    have hhead : (if (x == y) = true then (1 : Nat) else 0) = 0 := by
      simp [hxy]
    rw [List.map_cons, List.sum_cons, hhead, ih hxt]

theorem sum_map_indicator (x : String) :
    ∀ l : List String, l.Nodup → x ∈ l →
      (l.map (fun a => if (x == a) = true then (1 : Nat) else 0)).sum = 1 := by
  intro l
  induction l with
  | nil => intro _ hx; exact absurd hx (List.not_mem_nil x)
  | cons y t ih =>
    intro hnd hx
    rcases List.mem_cons.mp hx with rfl | hxt
    · have hxt : x ∉ t := (List.nodup_cons.mp hnd).1
      have hhead : (if (x == x) = true then (1 : Nat) else 0) = 1 := by
        simp
      rw [List.map_cons, List.sum_cons, hhead, sum_map_ite_zero x t hxt]
    · have hxy : (x == y) = false :=
        beq_eq_false_iff_ne.mpr
          (fun hc => (List.nodup_cons.mp hnd).1 (hc ▸ hxt))
      have hhead : (if (x == y) = true then (1 : Nat) else 0) = 0 := by
        simp [hxy]
      rw [List.map_cons, List.sum_cons, hhead,
        ih (List.nodup_cons.mp hnd).2 hxt]

theorem sum_map_count (qa : List String) (hqa : qa.Nodup) :
    ∀ m : List String, (∀ y ∈ m, y ∈ qa) →
      (qa.map (fun a => m.count a)).sum = m.length := by
  intro m
  induction m with
  | nil => intro _; simp [List.count_nil]
  | cons x t ih =>
    intro h
    have hx : x ∈ qa := h x (List.mem_cons_self x t)
    have ht : ∀ y ∈ t, y ∈ qa := fun y hy => h y (List.mem_cons_of_mem x hy)
    simp only [List.count_cons]
    rw [List.sum_map_add, ih ht, sum_map_indicator x qa hqa hx]
    simp

theorem length_eq_sum_filter_lengths {α : Type} (pf : α → Option TradingPair)
    (l : List α) (qa : List String) (hqa : qa.Nodup)
    (hmem : ∀ p ∈ l.filterMap pf, p.quoteAsset ∈ qa) :
    (l.filterMap pf).length
      = (qa.map (fun a =>
          ((l.filterMap pf).filter (fun p => p.quoteAsset == a)).length)).sum := by
  have h1 : ∀ a, ((l.filterMap pf).filter (fun p => p.quoteAsset == a)).length
      = ((l.filterMap pf).map (fun p => p.quoteAsset)).count a := by
    intro a
    rw [← List.countP_eq_length_filter, List.count_eq_countP, List.countP_map]
    rfl
  have h2 : (qa.map (fun a =>
        ((l.filterMap pf).filter (fun p => p.quoteAsset == a)).length)).sum
      = (qa.map (fun a =>
          ((l.filterMap pf).map (fun p => p.quoteAsset)).count a)).sum :=
    congrArg List.sum (List.map_congr_left (fun a _ => h1 a))
  rw [h2, sum_map_count qa hqa]
  · rw [List.length_map]
  · intro y hy
    obtain ⟨p, hp, rfl⟩ := List.mem_map.mp hy
    exact hmem p hp

theorem binancePairOf_quote_mem (qa : List String) (s : BinanceSymbol)
    (p : TradingPair) (h : binancePairOf qa s = some p) : p.quoteAsset ∈ qa := by
  unfold binancePairOf at h
  by_cases hc : (qa.contains s.quoteAsset && s.status == "TRADING") = true
  · rw [if_pos hc] at h
    have hc1 : qa.contains s.quoteAsset = true := Bool.and_elim_left hc
    cases h
    exact List.mem_of_elem_eq_true hc1
  · rw [if_neg hc] at h
    exact absurd h (by simp)

theorem krakenPairOf_quote_mem (qa : List String) (e : String × KrakenPairInfo)
    (p : TradingPair) (h : krakenPairOf qa e = some p) : p.quoteAsset ∈ qa := by
  obtain ⟨_, oa, hfind, hpeq⟩ := krakenPairOf_eq_some qa e p h
  subst hpeq
  exact List.mem_of_find?_eq_some hfind

/-- C10: for every fetch result of either exchange, `total` equals the
flat list's length, which equals the sum of the per-asset list lengths
over the (duplicate-free) requested codes; every pair stored under a
per-asset key has that key as its `quoteAsset`; and the flat list has
exactly one entry per kept raw record (the loop bodies append exactly
once per kept record — for Kraken the `break` stops at the first
matching canonical code). -/
theorem C10_fetch_result_invariants (qa : List String) (hqa : qa.Nodup)
    (bdata : List BinanceSymbol) (kdata : List (String × KrakenPairInfo)) :
    ((binanceProcess qa bdata).total = (binanceProcess qa bdata).all_pairs.length ∧
     (binanceProcess qa bdata).all_pairs.length
       = (qa.map (fun a => ((binanceProcess qa bdata).results a).length)).sum ∧
     (∀ a p, p ∈ (binanceProcess qa bdata).results a → p.quoteAsset = a) ∧
     (binanceProcess qa bdata).total
       = bdata.countP (fun s => (binancePairOf qa s).isSome)) ∧
    ((krakenProcess qa kdata).total = (krakenProcess qa kdata).all_pairs.length ∧
     (krakenProcess qa kdata).all_pairs.length
       = (qa.map (fun a => ((krakenProcess qa kdata).results a).length)).sum ∧
     (∀ a p, p ∈ (krakenProcess qa kdata).results a → p.quoteAsset = a) ∧
     (krakenProcess qa kdata).total
       = kdata.countP (fun e => (krakenPairOf qa e).isSome)) := by
  constructor
  · refine ⟨?_, ?_, ?_, ?_⟩
    · rw [binanceProcess_total, binanceProcess_all_pairs]
    · rw [binanceProcess_all_pairs]
      have hm : ∀ p ∈ bdata.filterMap (binancePairOf qa), p.quoteAsset ∈ qa := by
        intro p hp
        obtain ⟨s, hs, hsp⟩ := List.mem_filterMap.mp hp
        exact binancePairOf_quote_mem qa s p hsp
      rw [length_eq_sum_filter_lengths (binancePairOf qa) bdata qa hqa hm]
      refine congrArg List.sum (List.map_congr_left (fun a _ => ?_))
      rw [binanceProcess_results]
    · intro a p hp
      rw [binanceProcess_results] at hp
      exact eq_of_beq (@List.of_mem_filter _ (fun q => q.quoteAsset == a) p _ hp)
    · rw [binanceProcess_total, length_filterMap_eq_countP]
  · refine ⟨?_, ?_, ?_, ?_⟩
    · rw [krakenProcess_total, krakenProcess_all_pairs]
    · rw [krakenProcess_all_pairs]
      have hm : ∀ p ∈ kdata.filterMap (krakenPairOf qa), p.quoteAsset ∈ qa := by
        intro p hp
        obtain ⟨e, he, hep⟩ := List.mem_filterMap.mp hp
        exact krakenPairOf_quote_mem qa e p hep
      rw [length_eq_sum_filter_lengths (krakenPairOf qa) kdata qa hqa hm]
      refine congrArg List.sum (List.map_congr_left (fun a _ => ?_))
      rw [krakenProcess_results]
    · intro a p hp
      rw [krakenProcess_results] at hp
      exact eq_of_beq (@List.of_mem_filter _ (fun q => q.quoteAsset == a) p _ hp)
    · rw [krakenProcess_total, length_filterMap_eq_countP]

theorem C10_fetch_result_invariants_witness :
    (binanceProcess ["USDT", "USD"]
        [{ symbol := "ETHUSDT", baseAsset := "ETH", quoteAsset := "USDT",
           status := "TRADING" },
         { symbol := "ETHBTC", baseAsset := "ETH", quoteAsset := "BTC",
           status := "TRADING" }]).total
      = (binanceProcess ["USDT", "USD"]
          [{ symbol := "ETHUSDT", baseAsset := "ETH", quoteAsset := "USDT",
             status := "TRADING" },
           { symbol := "ETHBTC", baseAsset := "ETH", quoteAsset := "BTC",
             status := "TRADING" }]).all_pairs.length :=
  (C10_fetch_result_invariants ["USDT", "USD"] (by decide)
    [{ symbol := "ETHUSDT", baseAsset := "ETH", quoteAsset := "USDT",
       status := "TRADING" },
     { symbol := "ETHBTC", baseAsset := "ETH", quoteAsset := "BTC",
       status := "TRADING" }]
    []).1.1

end WatchlistImporter
